import Mathlib

/-!
Shallow embedding of the imat_lms Django application (courses, attendance,
payments, community chat apps) and proofs about its quiz-attempt grading,
progress tracking, attendance auto-marking, payment verification and
read-receipt handling.

Database tables are modelled as lists of records inside a `DB` structure;
each Django view action becomes a function `DB → ... → DB × Except String α`
returning the post-state (partial writes are kept on error, since no view is
wrapped in a transaction) together with either the response payload or the
error message of the response.  Python float arithmetic on scores is
modelled exactly over `ℚ`.
-/

namespace ImatLMS

/-- `courses.models.Question` (fields used by the views). -/
structure Question where
  id : Nat
  quizId : Nat
  questionType : String
  points : Int
  deriving DecidableEq, Repr

/-- `courses.models.QuestionOption`. -/
structure QuestionOption where
  id : Nat
  questionId : Nat
  isCorrect : Bool
  deriving DecidableEq, Repr

/-- `courses.models.Quiz`. -/
structure Quiz where
  id : Nat
  contentId : Nat
  passingScore : Int
  maxAttempts : Nat
  deriving DecidableEq, Repr

/-- `courses.models.QuizAttempt`. -/
structure QuizAttempt where
  id : Nat
  enrollmentId : Nat
  quizId : Nat
  score : ℚ
  passed : Bool
  attemptNumber : Nat
  completedAt : Option Nat
  deriving DecidableEq, Repr

/-- `courses.models.QuizAnswer`; unique per `(attempt, question)`. -/
structure QuizAnswer where
  attemptId : Nat
  questionId : Nat
  selectedOptionId : Option Nat
  isCorrect : Bool
  pointsEarned : Int
  deriving DecidableEq, Repr

/-- `courses.models.Enrollment`; unique per `(user, course)`. -/
structure Enrollment where
  id : Nat
  userId : Nat
  courseId : Nat
  isActive : Bool
  deriving DecidableEq, Repr

/-- `courses.models.Progress`; unique per `(enrollment, content)`. -/
structure Progress where
  enrollmentId : Nat
  contentId : Nat
  isCompleted : Bool
  completionDate : Option Nat
  timeSpent : Int
  lastPosition : Int
  deriving DecidableEq, Repr

/-- `courses.models.Content` (only the foreign key matters here). -/
structure Content where
  id : Nat
  moduleId : Nat
  deriving DecidableEq, Repr

/-- `courses.models.Module`. -/
structure Module where
  id : Nat
  courseId : Nat
  deriving DecidableEq, Repr

/-- `attendance.models.AttendanceSession`. -/
structure AttendanceSession where
  id : Nat
  courseId : Nat
  isRequired : Bool
  linkedContent : Option Nat
  deriving DecidableEq, Repr

/-- `attendance.models.AttendanceRecord`; unique per `(session, user)`. -/
structure AttendanceRecord where
  sessionId : Nat
  userId : Nat
  status : String
  deriving DecidableEq, Repr

/-- `payments.models.Payment` (fields used by `verify_payment`). -/
structure Payment where
  id : Nat
  userId : Nat
  courseId : Nat
  razorpayOrderId : String
  razorpayPaymentId : Option String
  razorpaySignature : Option String
  status : String
  errorMessage : String
  completedAt : Option Nat
  deriving DecidableEq, Repr

/-- The relational state acted on by the modelled views. -/
structure DB where
  questions : List Question
  questionOptions : List QuestionOption
  quizzes : List Quiz
  quizAttempts : List QuizAttempt
  quizAnswers : List QuizAnswer
  enrollments : List Enrollment
  progressRecords : List Progress
  contents : List Content
  modules : List Module
  attendanceSessions : List AttendanceSession
  attendanceRecords : List AttendanceRecord
  payments : List Payment
  deriving DecidableEq, Repr

/-- One entry of the `answers` array posted to `QuizAttemptViewSet.submit`
(fields of `QuizAnswerSubmitSerializer`; `selected_option_id` is optional
and nullable). -/
structure AnswerData where
  questionId : Nat
  selectedOptionId : Option Nat
  deriving DecidableEq, Repr

/-- `get_object_or_404(Question, id=..., quiz=attempt.quiz)`. -/
def findQuestion (db : DB) (qid quizId : Nat) : Option Question :=
  db.questions.find? (fun q => q.id == qid && q.quizId == quizId)

/-- `get_object_or_404(QuestionOption, id=selected_option_id)`. -/
def findOption (db : DB) (oid : Nat) : Option QuestionOption :=
  db.questionOptions.find? (fun o => o.id == oid)

/-- Whether a `QuizAnswer` row for `(attempt, question)` already exists
(the database enforces `unique_together = ['attempt', 'question']`, so a
second `QuizAnswer.objects.create` with the same pair raises). -/
def hasQuizAnswer (db : DB) (attemptId qid : Nat) : Bool :=
  db.quizAnswers.any (fun a => a.attemptId == attemptId && a.questionId == qid)

/-- Python truthiness of the nullable integer `selected_option_id`
(`if selected_option_id:`): `None` and `0` are falsy. -/
def truthyOption : Option Nat → Bool
  | some n => n != 0
  | none => false

/-- The `for answer_data in answers_data` loop of
`QuizAttemptViewSet.submit`: threads the running `total_points` and
`earned_points`, inserts a `QuizAnswer` row for each answered
multiple-choice question, and aborts with the partial state kept when a
lookup 404s or the unique constraint fires. -/
def submitProcessAnswers (attempt : QuizAttempt) (db : DB) (total earned : Int) :
    List AnswerData → DB × Except String (Int × Int)
  | [] => (db, .ok (total, earned))
  | a :: rest =>
    match findQuestion db a.questionId attempt.quizId with
    | none => (db, .error "404: question not found")
    | some q =>
      let total1 := total + q.points
      if q.questionType == "multiple_choice" && truthyOption a.selectedOptionId then
        match a.selectedOptionId with
        | none => (db, .error "unreachable: truthy option is some")
        | some oid =>
          match findOption db oid with
          | none => (db, .error "404: option not found")
          | some opt =>
            let isCorrect := opt.isCorrect
            let pts : Int := if isCorrect then q.points else 0
            let earned1 := earned + pts
            if hasQuizAnswer db attempt.id a.questionId then
              (db, .error "IntegrityError: duplicate quiz answer")
            else
              submitProcessAnswers attempt
                { db with quizAnswers := db.quizAnswers ++
                    [⟨attempt.id, a.questionId, some oid, isCorrect, pts⟩] }
                total1 earned1 rest
      else
        submitProcessAnswers attempt db total1 earned rest

/-- `get_object_or_404(QuizAttempt, id=pk, enrollment__user=request.user)`. -/
def findAttemptForUser (db : DB) (attemptId userId : Nat) : Option QuizAttempt :=
  db.quizAttempts.find? (fun a => a.id == attemptId &&
    db.enrollments.any (fun e => e.id == a.enrollmentId && e.userId == userId))

/-- `attempt.save()`: update the row with the attempt's primary key. -/
def saveAttempt (ats : List QuizAttempt) (a : QuizAttempt) : List QuizAttempt :=
  ats.map (fun x => if x.id == a.id then a else x)

/-- The `Progress.objects.get_or_create` + field update + `save()` block of
`submit` that marks the quiz's content completed once the attempt passed. -/
def markQuizProgress (db : DB) (attempt : QuizAttempt) (quiz : Quiz) (now : Nat) : DB :=
  let key := fun (p : Progress) =>
    p.enrollmentId == attempt.enrollmentId && p.contentId == quiz.contentId
  let base : Progress :=
    match db.progressRecords.find? key with
    | some p => p
    | none => ⟨attempt.enrollmentId, quiz.contentId, false, none, 0, 0⟩
  let updated := { base with isCompleted := true, completionDate := some now }
  { db with progressRecords :=
      if db.progressRecords.any key then
        db.progressRecords.map (fun p => if key p then updated else p)
      else
        db.progressRecords ++ [updated] }

/-- `QuizAttemptViewSet.submit`: grade the posted answers, record score,
pass/fail and completion time on the attempt, and mark the quiz's content
completed when the attempt passed. -/
def submit (db : DB) (userId attemptId : Nat) (answers : List AnswerData) (now : Nat) :
    DB × Except String QuizAttempt :=
  match findAttemptForUser db attemptId userId with
  | none => (db, .error "404: attempt not found")
  | some attempt =>
    if attempt.completedAt.isSome then
      (db, .error "Quiz already submitted")
    else
      match db.quizzes.find? (fun qz => qz.id == attempt.quizId) with
      | none => (db, .error "404: quiz not found")
      | some quiz =>
        match submitProcessAnswers attempt db 0 0 answers with
        | (db1, .error e) => (db1, .error e)
        | (db1, .ok (total, earned)) =>
          let score : ℚ := if total > 0 then ((earned : ℚ) / (total : ℚ)) * 100 else 0
          let passed := decide (score ≥ (quiz.passingScore : ℚ))
          let attempt1 := { attempt with
            score := score, passed := passed, completedAt := some now }
          let db2 := { db1 with quizAttempts := saveAttempt db1.quizAttempts attempt1 }
          let db3 := if passed then markQuizProgress db2 attempt1 quiz now else db2
          (db3, .ok attempt1)

/-- `quiz.content.module.course`: follow the foreign keys from a quiz to
its course. -/
def quizCourse (db : DB) (quiz : Quiz) : Option Nat :=
  match db.contents.find? (fun c => c.id == quiz.contentId) with
  | none => none
  | some c =>
    match db.modules.find? (fun m => m.id == c.moduleId) with
    | none => none
    | some m => some m.courseId

/-- `get_object_or_404(Enrollment, user=..., course=..., is_active=True)`. -/
def findActiveEnrollment (db : DB) (userId courseId : Nat) : Option Enrollment :=
  db.enrollments.find? (fun e =>
    e.userId == userId && e.courseId == courseId && e.isActive)

/-- `QuizAttempt.objects.filter(enrollment=..., quiz=...).count()`. -/
def attemptCount (db : DB) (enrollmentId quizId : Nat) : Nat :=
  (db.quizAttempts.filter (fun a =>
    a.enrollmentId == enrollmentId && a.quizId == quizId)).length

/-- `QuizAttemptViewSet.start`: refuse once the enrollment already has
`max_attempts` attempts at the quiz, otherwise create attempt number
`existing + 1` with score 0 (`newId` models the database-assigned primary
key). -/
def start (db : DB) (userId quizId newId : Nat) : DB × Except String QuizAttempt :=
  match db.quizzes.find? (fun q => q.id == quizId) with
  | none => (db, .error "404: quiz not found")
  | some quiz =>
    match quizCourse db quiz with
    | none => (db, .error "404: course not found")
    | some courseId =>
      match findActiveEnrollment db userId courseId with
      | none => (db, .error "404: enrollment not found")
      | some enrollment =>
        let existing := attemptCount db enrollment.id quiz.id
        if existing ≥ quiz.maxAttempts then
          (db, .error "Maximum attempts reached")
        else
          let attempt : QuizAttempt :=
            ⟨newId, enrollment.id, quiz.id, 0, false, existing + 1, none⟩
          ({ db with quizAttempts := db.quizAttempts ++ [attempt] }, .ok attempt)

/-- The validated body of `ProgressUpdateSerializer` (`is_completed`,
`time_spent`, `last_position` are optional). -/
structure ProgressUpdateData where
  contentId : Nat
  isCompleted : Option Bool
  timeSpent : Option Int
  lastPosition : Option Int
  deriving DecidableEq, Repr

/-- `content.module.course`. -/
def contentCourse (db : DB) (content : Content) : Option Nat :=
  match db.modules.find? (fun m => m.id == content.moduleId) with
  | none => none
  | some m => some m.courseId

/-- `AttendanceRecord.objects.update_or_create(session=..., user=...,
defaults={'status': ...})`. -/
def attendanceUpdateOrCreate (db : DB) (sessionId userId : Nat) (st : String) : DB :=
  let key := fun (r : AttendanceRecord) => r.sessionId == sessionId && r.userId == userId
  { db with attendanceRecords :=
      if db.attendanceRecords.any key then
        db.attendanceRecords.map (fun r => if key r then { r with status := st } else r)
      else
        db.attendanceRecords ++ [⟨sessionId, userId, st⟩] }

/-- The `for session in linked_sessions` loop of `update_progress`:
`update_or_create` an attendance record with status `present` for each
linked required session. -/
def autoMarkAttendance (db : DB) (userId : Nat) (sessions : List AttendanceSession) : DB :=
  sessions.foldl (fun d s => attendanceUpdateOrCreate d s.id userId "present") db

/-- The field-update block of `update_progress`: apply the optional
fields of the request to the progress row, stamping `completion_date` on
the transition to completed. -/
def applyProgressUpdate (base : Progress) (data : ProgressUpdateData) (now : Nat) :
    Progress :=
  let p1 :=
    match data.isCompleted with
    | some b =>
      let p := { base with isCompleted := b }
      if b && base.completionDate.isNone then
        { p with completionDate := some now }
      else p
    | none => base
  let p2 :=
    match data.timeSpent with
    | some t => { p1 with timeSpent := t }
    | none => p1
  let p3 :=
    match data.lastPosition with
    | some l => { p2 with lastPosition := l }
    | none => p2
  p3

/-- `applyProgressUpdate` never moves the row to another
`(enrollment, content)` pair. -/
theorem applyProgressUpdate_key (base : Progress) (data : ProgressUpdateData)
    (now : Nat) :
    (applyProgressUpdate base data now).enrollmentId = base.enrollmentId ∧
    (applyProgressUpdate base data now).contentId = base.contentId := by
  rw [applyProgressUpdate]
  cases data.isCompleted <;> cases data.timeSpent <;> cases data.lastPosition <;>
    (dsimp only) <;> (try split) <;> exact ⟨rfl, rfl⟩

/-- `ProgressViewSet.update_progress`: upsert the `(enrollment, content)`
progress row, applying the optional fields of the request (stamping
`completion_date` on the transition to completed), then auto-mark
attendance for every required session linked to the content. -/
def update_progress (db : DB) (userId : Nat) (data : ProgressUpdateData) (now : Nat) :
    DB × Except String Progress :=
  match db.contents.find? (fun c => c.id == data.contentId) with
  | none => (db, .error "404: content not found")
  | some content =>
    match contentCourse db content with
    | none => (db, .error "404: course not found")
    | some courseId =>
      match findActiveEnrollment db userId courseId with
      | none => (db, .error "404: enrollment not found")
      | some enrollment =>
        let key := fun (p : Progress) =>
          p.enrollmentId == enrollment.id && p.contentId == content.id
        let base : Progress :=
          match db.progressRecords.find? key with
          | some p => p
          | none => ⟨enrollment.id, content.id, false, none, 0, 0⟩
        let p3 := applyProgressUpdate base data now
        let db1 := { db with
          progressRecords :=
            if db.progressRecords.any key then
              db.progressRecords.map (fun p => if key p then p3 else p)
            else
              db.progressRecords ++ [p3] }
        let linkedSessions := db1.attendanceSessions.filter (fun s =>
          s.linkedContent == some content.id && s.isRequired)
        let db2 := autoMarkAttendance db1 userId linkedSessions
        (db2, .ok p3)

/-- `Enrollment.progress_percentage`: completed progress records of the
enrollment over all contents of the course, times 100, rounded to two
decimal places (Python `round`, banker's rounding); 0 when the course has
no contents. -/
def contentInCourse (db : DB) (c : Content) (courseId : Nat) : Bool :=
  db.modules.any (fun m => m.id == c.moduleId && m.courseId == courseId)

/-- Python `round(x, 2)` over exact rationals: round half to even at the
second decimal place. -/
def round2 (q : ℚ) : ℚ :=
  let scaled := q * 100
  let fl := ⌊scaled⌋
  let frac := scaled - fl
  let n : ℤ :=
    if frac < 1/2 then fl
    else if 1/2 < frac then fl + 1
    else if fl % 2 = 0 then fl else fl + 1
  (n : ℚ) / 100

/-- `Enrollment.progress_percentage`. -/
def progress_percentage (db : DB) (e : Enrollment) : ℚ :=
  let totalContents := (db.contents.filter (fun c => contentInCourse db c e.courseId)).length
  if totalContents = 0 then 0
  else
    let completed := (db.progressRecords.filter (fun p =>
      p.enrollmentId == e.id && p.isCompleted)).length
    round2 (((completed : ℚ) / (totalContents : ℚ)) * 100)

/-- The validated body of `VerifyPaymentSerializer`. -/
structure VerifyPaymentData where
  razorpayOrderId : String
  razorpayPaymentId : String
  razorpaySignature : String
  courseId : Nat
  deriving DecidableEq, Repr

/-- `PaymentViewSet.verify_payment`: recompute the HMAC-SHA256 hex digest
of `"order_id|payment_id"` under the configured key secret (the primitive
`hmacSha256Hex` is a parameter, as `hmac`/`hashlib` are library code); on
mismatch mark the payment failed, otherwise mark it completed and create
or reactivate the `(user, course)` enrollment (`newEnrollmentId` models
the database-assigned primary key). -/
def findPaymentFor (db : DB) (orderId : String) (userId courseId : Nat) :
    Option Payment :=
  db.payments.find? (fun p => p.razorpayOrderId == orderId &&
    p.userId == userId && p.courseId == courseId)

def verify_payment (hmacSha256Hex : String → String → String) (keySecret : String)
    (db : DB) (userId : Nat) (d : VerifyPaymentData) (now newEnrollmentId : Nat) :
    DB × Except String Nat :=
  match findPaymentFor db d.razorpayOrderId userId d.courseId with
  | none => (db, .error "404: payment not found")
  | some payment =>
    let generated := hmacSha256Hex keySecret
      (d.razorpayOrderId ++ "|" ++ d.razorpayPaymentId)
    if generated ≠ d.razorpaySignature then
      let p1 := { payment with
        status := "failed"
        errorMessage := "Invalid payment signature" }
      ({ db with payments :=
          db.payments.map (fun p => if p.id == payment.id then p1 else p) },
       .error "Payment verification failed")
    else
      let p1 := { payment with
        razorpayPaymentId := some d.razorpayPaymentId
        razorpaySignature := some d.razorpaySignature
        status := "completed"
        completedAt := some now }
      let db1 := { db with
        payments := db.payments.map
          (fun p : Payment => if p.id == payment.id then p1 else p) }
      match db1.enrollments.find? (fun e =>
          e.userId == userId && e.courseId == payment.courseId) with
      | some e =>
        let e1 := { e with isActive := true }
        ({ db1 with enrollments :=
            db1.enrollments.map (fun x : Enrollment => if x.id == e.id then e1 else x) },
         .ok e1.id)
      | none =>
        let e : Enrollment := ⟨newEnrollmentId, userId, payment.courseId, true⟩
        ({ db1 with enrollments := db1.enrollments ++ [e] }, .ok e.id)

/-- `community.models.ChatMessage` (fields used by read receipts). -/
structure ChatMessage where
  id : Nat
  status : String
  readAt : Option Nat
  deriving DecidableEq, Repr

/-- `community.models.ChatMessageReadReceipt`; unique per `(message, user)`. -/
structure ChatMessageReadReceipt where
  messageId : Nat
  userId : Nat
  deriving DecidableEq, Repr

/-- The chat tables touched by `ChatConsumer.handle_read_receipt`. -/
structure ChatDB where
  messages : List ChatMessage
  readReceipts : List ChatMessageReadReceipt
  deriving DecidableEq, Repr

/-- A `group_send` to the community's channel group. -/
structure GroupSend where
  type : String
  messageId : Nat
  userId : Nat
  timestamp : Nat
  deriving DecidableEq, Repr

/-- `ChatMessage.mark_as_read`: set status `read` and stamp `read_at`,
only when not already read. -/
def mark_as_read (m : ChatMessage) (now : Nat) : ChatMessage :=
  if m.status ≠ "read" then { m with status := "read", readAt := some now } else m

/-- `ChatConsumer.save_read_receipt`: look the message up, mark it read,
and `get_or_create` the per-user receipt; a missing message is logged and
swallowed, changing nothing. -/
def save_read_receipt (db : ChatDB) (userId messageId : Nat) (now : Nat) : ChatDB :=
  match db.messages.find? (fun m => m.id == messageId) with
  | none => db
  | some _ =>
    let msgs := db.messages.map (fun m =>
      if m.id == messageId then mark_as_read m now else m)
    let receipts :=
      if db.readReceipts.any (fun r => r.messageId == messageId && r.userId == userId) then
        db.readReceipts
      else
        db.readReceipts ++ [⟨messageId, userId⟩]
    ⟨msgs, receipts⟩

/-- `ChatConsumer.handle_read_receipt`: bail out on a falsy `message_id`,
otherwise save the receipt and broadcast a `read_receipt_broadcast` to the
community group (the broadcast is sent whether or not the message
exists). -/
def handle_read_receipt (db : ChatDB) (userId : Nat) (messageId : Option Nat)
    (now : Nat) : ChatDB × List GroupSend :=
  match messageId with
  | none => (db, [])
  | some mid =>
    if mid == 0 then (db, [])
    else
      (save_read_receipt db userId mid now,
       [⟨"read_receipt_broadcast", mid, userId, now⟩])

section SpecViews

/-- Points of the question referenced by a submitted answer (0 when the
lookup would 404, which cannot happen on a successful submission). -/
def answerQuestionPoints (db : DB) (quizId : Nat) (a : AnswerData) : Int :=
  ((findQuestion db a.questionId quizId).map Question.points).getD 0

/-- Whether a submitted answer produces a stored `QuizAnswer` row: only
`multiple_choice` questions with a (truthy) selected option do. -/
def answerStored (db : DB) (quizId : Nat) (a : AnswerData) : Bool :=
  match findQuestion db a.questionId quizId with
  | some q => q.questionType == "multiple_choice" && truthyOption a.selectedOptionId
  | none => false

/-- Whether the selected option of a submitted answer is a correct one. -/
def answerIsCorrect (db : DB) (a : AnswerData) : Bool :=
  match a.selectedOptionId with
  | some oid => ((findOption db oid).map QuestionOption.isCorrect).getD false
  | none => false

/-- Points a submitted answer earns: the question's points when a stored
multiple-choice answer selects a correct option, otherwise 0. -/
def answerEarnedPoints (db : DB) (quizId : Nat) (a : AnswerData) : Int :=
  if answerStored db quizId a && answerIsCorrect db a then
    answerQuestionPoints db quizId a
  else 0

/-- The `QuizAnswer` row a stored answer creates. -/
def storedAnswerRow (db : DB) (attemptId quizId : Nat) (a : AnswerData) : QuizAnswer :=
  ⟨attemptId, a.questionId, a.selectedOptionId, answerIsCorrect db a,
    answerEarnedPoints db quizId a⟩

/-- All `QuizAnswer` rows a submission stores, in submission order. -/
def storedRows (db : DB) (attemptId quizId : Nat) (answers : List AnswerData) :
    List QuizAnswer :=
  (answers.filter (fun a => answerStored db quizId a)).map
    (storedAnswerRow db attemptId quizId)

/-- Score denominator of a submission: sum of the points of every
submitted question. -/
def submittedTotal (db : DB) (quizId : Nat) (answers : List AnswerData) : Int :=
  (answers.map (answerQuestionPoints db quizId)).sum

/-- Score numerator of a submission: sum of the earned points. -/
def submittedEarned (db : DB) (quizId : Nat) (answers : List AnswerData) : Int :=
  (answers.map (answerEarnedPoints db quizId)).sum

end SpecViews

section UniquenessPredicates

/-- At most one `Enrollment` per `(user, course)`. -/
def EnrollmentsUnique (l : List Enrollment) : Prop :=
  l.Pairwise (fun a b => (a.userId, a.courseId) ≠ (b.userId, b.courseId))

/-- At most one `Progress` per `(enrollment, content)`. -/
def ProgressUnique (l : List Progress) : Prop :=
  l.Pairwise (fun a b => (a.enrollmentId, a.contentId) ≠ (b.enrollmentId, b.contentId))

/-- At most one `AttendanceRecord` per `(session, user)`. -/
def AttendanceUnique (l : List AttendanceRecord) : Prop :=
  l.Pairwise (fun a b => (a.sessionId, a.userId) ≠ (b.sessionId, b.userId))

/-- At most one `QuizAnswer` per `(attempt, question)`. -/
def QuizAnswersUnique (l : List QuizAnswer) : Prop :=
  l.Pairwise (fun a b => (a.attemptId, a.questionId) ≠ (b.attemptId, b.questionId))

/-- The database-enforced uniqueness constraints of the data model. -/
def dbUnique (db : DB) : Prop :=
  EnrollmentsUnique db.enrollments ∧ ProgressUnique db.progressRecords ∧
  AttendanceUnique db.attendanceRecords ∧ QuizAnswersUnique db.quizAnswers

end UniquenessPredicates

section PairwiseHelpers

/-- Appending a record whose key clashes with no existing record keeps the
key column duplicate-free. -/
theorem pairwise_ne_append_singleton {α κ : Type} (k : α → κ) (l : List α) (x : α)
    (h : l.Pairwise (fun a b => k a ≠ k b)) (hx : ∀ y ∈ l, k y ≠ k x) :
    (l ++ [x]).Pairwise (fun a b => k a ≠ k b) := by
  rw [List.pairwise_append]
  exact ⟨h, List.pairwise_singleton _ _, fun a ha b hb => by
    rw [List.mem_singleton] at hb
    exact hb ▸ hx a ha⟩

/-- A rowwise update that does not touch the key column keeps it
duplicate-free. -/
theorem pairwise_ne_map_key {α κ : Type} (k : α → κ) (f : α → α) (l : List α)
    (hf : ∀ x ∈ l, k (f x) = k x)
    (h : l.Pairwise (fun a b => k a ≠ k b)) :
    (l.map f).Pairwise (fun a b => k a ≠ k b) := by
  rw [List.pairwise_map]
  exact h.imp_of_mem (fun ha hb hr => by rw [hf _ ha, hf _ hb]; exact hr)

/-- In a list with pairwise-distinct identifiers, two members with the
same identifier are the same record. -/
theorem eq_of_mem_of_id_pairwise {α : Type} (ident : α → Nat) {l : List α}
    (hu : l.Pairwise (fun a b => ident a ≠ ident b)) {x y : α}
    (hx : x ∈ l) (hy : y ∈ l) (h : ident x = ident y) : x = y := by
  induction l with
  | nil => cases hx
  | cons a t ih =>
    rw [List.pairwise_cons] at hu
    rcases List.mem_cons.mp hx with hxa | hxt <;>
      rcases List.mem_cons.mp hy with hya | hyt
    · exact hxa.trans hya.symm
    · exact absurd (hxa ▸ h) (hu.1 y hyt)
    · exact absurd (hya ▸ h.symm) (hu.1 x hxt)
    · exact ih hu.2 hxt hyt

/-- `UPDATE ... WHERE id = tid` (modelled as a map) leaves the first
id-match where `find?` sees the updated row. -/
theorem find_map_update {α : Type} (ident : α → Nat) (g : α → α) (tid : Nat)
    (hg : ∀ y, ident y = tid → ident (g y) = ident y) :
    ∀ (l : List α) (x : α),
      l.find? (fun y => ident y == tid) = some x →
      (l.map (fun y => if ident y == tid then g y else y)).find?
        (fun y => ident y == tid) = some (g x) := by
  intro l
  induction l with
  | nil => intro x hx; cases hx
  | cons a t ih =>
    intro x hx
    by_cases ha : ident a = tid
    · have hax : x = a := by
        rw [List.find?_cons_of_pos _ (by simpa using ha)] at hx
        exact (Option.some_inj.mp hx).symm
      rw [List.map_cons, if_pos (by simpa using ha),
        List.find?_cons_of_pos _ (by simpa using (hg a ha).trans ha), hax]
    · rw [List.find?_cons_of_neg _ (by simpa using ha)] at hx
      rw [List.map_cons, if_neg (by simpa using ha),
        List.find?_cons_of_neg _ (by simpa using ha)]
      exact ih x hx

/-- Django's `update_or_create`/`get_or_create`+`save` upsert shape: the
result always contains a row satisfying any predicate the upserted row
satisfies. -/
theorem upsert_any {α : Type} (key pred : α → Bool) (l : List α) (v : α)
    (hv : pred v = true) :
    ((if l.any key then l.map (fun r => if key r then v else r) else l ++ [v]).any
      pred) = true := by
  by_cases hk : l.any key = true
  · rw [if_pos hk]
    obtain ⟨x, hx, hpx⟩ := List.any_eq_true.mp hk
    refine List.any_eq_true.mpr ⟨if key x then v else x, List.mem_map.mpr ⟨x, hx, rfl⟩, ?_⟩
    rw [if_pos hpx]
    exact hv
  · rw [if_neg hk]
    exact List.any_eq_true.mpr ⟨v, by simp, hv⟩

/-- The upsert shape preserves at-most-one-row-per-key, provided the
lookup key agrees with the uniqueness key. -/
theorem upsert_pairwise {α κ : Type} (key : α → Bool) (k : α → κ) (l : List α) (v : α)
    (hkey : ∀ r, key r = true ↔ k r = k v)
    (h : l.Pairwise (fun a b => k a ≠ k b)) :
    (if l.any key then l.map (fun r => if key r then v else r) else l ++ [v]).Pairwise
      (fun a b => k a ≠ k b) := by
  by_cases hk : l.any key = true
  · rw [if_pos hk]
    refine pairwise_ne_map_key k _ _ ?_ h
    intro x _
    by_cases hkx : key x = true
    · rw [if_pos hkx]
      exact ((hkey x).mp hkx).symm
    · rw [if_neg hkx]
  · rw [if_neg hk]
    refine pairwise_ne_append_singleton k l v h ?_
    intro y hy hky
    exact hk (List.any_eq_true.mpr ⟨y, hy, (hkey y).mpr hky⟩)

/-- Updating only key-matched rows does not disturb the rows a
key-incompatible selection sees. -/
theorem filter_map_key_untouched {α : Type} (key sel : α → Bool) (l : List α) (v : α)
    (hdisj : ∀ r, key r = true → sel r = false) (hv : sel v = false) :
    (l.map (fun r => if key r then v else r)).filter sel = l.filter sel := by
  induction l with
  | nil => rfl
  | cons a t iht =>
    rw [List.map_cons, List.filter_cons, List.filter_cons]
    by_cases hka : key a = true
    · rw [if_pos hka, hdisj a hka, hv]
      simpa using iht
    · rw [if_neg hka]
      cases hsa : sel a
      · simpa [hsa] using iht
      · simp [hsa, iht]

/-- The upsert shape leaves rows whose key differs untouched, for any
predicate `sel` that is incompatible with the lookup key. -/
theorem upsert_filter_untouched {α : Type} (key sel : α → Bool) (l : List α) (v : α)
    (hdisj : ∀ r, key r = true → sel r = false) (hv : sel v = false) :
    ((if l.any key then l.map (fun r => if key r then v else r) else l ++ [v]).filter
      sel) = l.filter sel := by
  by_cases hk : l.any key = true
  · rw [if_pos hk]
    exact filter_map_key_untouched key sel l v hdisj hv
  · rw [if_neg hk, List.filter_append]
    simp [hv]

end PairwiseHelpers

section SubmitLemmas

theorem answerQuestionPoints_set_quizAnswers (db : DB) (x : List QuizAnswer)
    (quizId : Nat) (a : AnswerData) :
    answerQuestionPoints { db with quizAnswers := x } quizId a =
      answerQuestionPoints db quizId a := rfl

theorem answerStored_set_quizAnswers (db : DB) (x : List QuizAnswer)
    (quizId : Nat) (a : AnswerData) :
    answerStored { db with quizAnswers := x } quizId a = answerStored db quizId a := rfl

theorem answerEarnedPoints_set_quizAnswers (db : DB) (x : List QuizAnswer)
    (quizId : Nat) (a : AnswerData) :
    answerEarnedPoints { db with quizAnswers := x } quizId a =
      answerEarnedPoints db quizId a := rfl

theorem storedAnswerRow_set_quizAnswers (db : DB) (x : List QuizAnswer)
    (attemptId quizId : Nat) (a : AnswerData) :
    storedAnswerRow { db with quizAnswers := x } attemptId quizId a =
      storedAnswerRow db attemptId quizId a := rfl

theorem submittedTotal_set_quizAnswers (db : DB) (x : List QuizAnswer)
    (quizId : Nat) (answers : List AnswerData) :
    submittedTotal { db with quizAnswers := x } quizId answers =
      submittedTotal db quizId answers := rfl

theorem submittedEarned_set_quizAnswers (db : DB) (x : List QuizAnswer)
    (quizId : Nat) (answers : List AnswerData) :
    submittedEarned { db with quizAnswers := x } quizId answers =
      submittedEarned db quizId answers := rfl

theorem storedRows_set_quizAnswers (db : DB) (x : List QuizAnswer)
    (attemptId quizId : Nat) (answers : List AnswerData) :
    storedRows { db with quizAnswers := x } attemptId quizId answers =
      storedRows db attemptId quizId answers := rfl

/-- On a successful run, the answer loop of `submit` returns the sum of all
submitted questions' points and of the earned points, and appends exactly
the rows of the stored (multiple-choice, option-selected) answers. -/
theorem submitProcessAnswers_ok_spec (attempt : QuizAttempt) :
    ∀ (answers : List AnswerData) (db : DB) (total earned : Int)
      (db1 : DB) (t e : Int),
      submitProcessAnswers attempt db total earned answers = (db1, .ok (t, e)) →
      t = total + submittedTotal db attempt.quizId answers ∧
      e = earned + submittedEarned db attempt.quizId answers ∧
      db1 = { db with quizAnswers :=
        db.quizAnswers ++ storedRows db attempt.id attempt.quizId answers } := by
  intro answers
  induction answers with
  | nil =>
    intro db total earned db1 t e h
    simp only [submitProcessAnswers, Prod.mk.injEq, Except.ok.injEq] at h
    obtain ⟨hdb, ht, he⟩ := h
    simp [submittedTotal, submittedEarned, storedRows, ← hdb, ← ht, ← he]
  | cons a rest ih =>
    intro db total earned db1 t e h
    rw [submitProcessAnswers] at h
    cases hq : findQuestion db a.questionId attempt.quizId with
    | none => rw [hq] at h; simp at h
    | some q =>
      rw [hq] at h
      dsimp only at h
      by_cases hc : (q.questionType == "multiple_choice" &&
          truthyOption a.selectedOptionId) = true
      · rw [if_pos hc] at h
        cases hs : a.selectedOptionId with
        | none => rw [hs] at h; rw [hs] at hc; simp [truthyOption] at hc
        | some oid =>
          rw [hs] at h
          dsimp only at h
          cases ho : findOption db oid with
          | none => rw [ho] at h; simp at h
          | some opt =>
            rw [ho] at h
            dsimp only at h
            by_cases hdup : hasQuizAnswer db attempt.id a.questionId = true
            · rw [if_pos hdup] at h; simp at h
            · rw [if_neg hdup] at h
              obtain ⟨ht, he, hdb⟩ := ih _ _ _ _ _ _ h
              rw [submittedTotal_set_quizAnswers] at ht
              rw [submittedEarned_set_quizAnswers] at he
              rw [storedRows_set_quizAnswers] at hdb
              dsimp only at hdb
              have hstored : answerStored db attempt.quizId a = true := by
                simp only [answerStored, hq]; exact hc
              have hcorrect : answerIsCorrect db a = opt.isCorrect := by
                simp [answerIsCorrect, hs, ho]
              have hpts : answerEarnedPoints db attempt.quizId a =
                  if opt.isCorrect = true then q.points else 0 := by
                simp only [answerEarnedPoints, hstored, hcorrect, Bool.true_and,
                  answerQuestionPoints, hq, Option.map_some', Option.getD_some]
              refine ⟨?_, ?_, ?_⟩
              · rw [ht]
                simp only [submittedTotal, List.map_cons, List.sum_cons,
                  answerQuestionPoints, hq, Option.map_some', Option.getD_some]
                omega
              · rw [he]
                simp only [submittedEarned, List.map_cons, List.sum_cons, hpts]
                omega
              · rw [hdb]
                simp only [storedRows, List.filter_cons, hstored, if_pos,
                  List.map_cons, storedAnswerRow, hcorrect, hpts, hs]
                simp [List.append_assoc]
      · rw [if_neg hc] at h
        obtain ⟨ht, he, hdb⟩ := ih _ _ _ _ _ _ h
        have hstored : answerStored db attempt.quizId a = false := by
          simp only [answerStored, hq]
          exact Bool.not_eq_true _ ▸ hc
        have hpts : answerEarnedPoints db attempt.quizId a = 0 := by
          simp [answerEarnedPoints, hstored]
        refine ⟨?_, ?_, ?_⟩
        · rw [ht]
          simp only [submittedTotal, List.map_cons, List.sum_cons,
            answerQuestionPoints, hq, Option.map_some', Option.getD_some]
          omega
        · rw [he]
          simp only [submittedEarned, List.map_cons, List.sum_cons, hpts]
          omega
        · rw [hdb]
          simp [storedRows, List.filter_cons, hstored]

/-- Whether it succeeds or aborts half-way, the answer loop only appends
rows to `quizAnswers` (each append guarded by the unique-constraint
check), leaves every other table alone, and never produces the
`Quiz already submitted` error. -/
theorem submitProcessAnswers_state (attempt : QuizAttempt) :
    ∀ (answers : List AnswerData) (db : DB) (total earned : Int),
      (∃ rows : List QuizAnswer,
        (submitProcessAnswers attempt db total earned answers).1 =
          { db with quizAnswers := db.quizAnswers ++ rows } ∧
        (QuizAnswersUnique db.quizAnswers →
          QuizAnswersUnique (db.quizAnswers ++ rows))) ∧
      (∀ msg, (submitProcessAnswers attempt db total earned answers).2 = .error msg →
        msg ≠ "Quiz already submitted") := by
  intro answers
  induction answers with
  | nil =>
    intro db total earned
    refine ⟨⟨[], by simp [submitProcessAnswers], fun hu => by simpa using hu⟩, ?_⟩
    intro msg hmsg
    simp [submitProcessAnswers] at hmsg
  | cons a rest ih =>
    intro db total earned
    rw [submitProcessAnswers]
    cases hq : findQuestion db a.questionId attempt.quizId with
    | none =>
      refine ⟨⟨[], by simp, fun hu => by simpa using hu⟩, ?_⟩
      intro msg hmsg
      simp at hmsg
      simp [← hmsg]
    | some q =>
      dsimp only
      by_cases hc : (q.questionType == "multiple_choice" &&
          truthyOption a.selectedOptionId) = true
      · rw [if_pos hc]
        cases hs : a.selectedOptionId with
        | none =>
          rw [hs] at hc; simp [truthyOption] at hc
        | some oid =>
          dsimp only
          cases ho : findOption db oid with
          | none =>
            refine ⟨⟨[], by simp, fun hu => by simpa using hu⟩, ?_⟩
            intro msg hmsg
            simp at hmsg
            simp [← hmsg]
          | some opt =>
            dsimp only
            by_cases hdup : hasQuizAnswer db attempt.id a.questionId = true
            · rw [if_pos hdup]
              refine ⟨⟨[], by simp, fun hu => by simpa using hu⟩, ?_⟩
              intro msg hmsg
              simp at hmsg
              simp [← hmsg]
            · rw [if_neg hdup]
              obtain ⟨⟨rows, hstate, huniq⟩, herr⟩ := ih
                { db with quizAnswers := db.quizAnswers ++
                    [⟨attempt.id, a.questionId, some oid, opt.isCorrect,
                      if opt.isCorrect then q.points else 0⟩] }
                (total + q.points)
                (earned + if opt.isCorrect then q.points else 0)
              refine ⟨⟨⟨attempt.id, a.questionId, some oid, opt.isCorrect,
                  if opt.isCorrect then q.points else 0⟩ :: rows, ?_, ?_⟩, herr⟩
              · rw [hstate]
                simp
              · intro hu
                have hdupF : hasQuizAnswer db attempt.id a.questionId = false := by
                  simpa using hdup
                have hrow : ∀ y ∈ db.quizAnswers,
                    (y.attemptId, y.questionId) ≠ (attempt.id, a.questionId) := by
                  intro y hy hk
                  rw [Prod.mk.injEq] at hk
                  have hany : db.quizAnswers.any
                      (fun r => r.attemptId == attempt.id &&
                        r.questionId == a.questionId) = true :=
                    List.any_eq_true.mpr ⟨y, hy, by simp [hk.1, hk.2]⟩
                  rw [hasQuizAnswer, hany] at hdupF
                  exact Bool.noConfusion hdupF
                have happ := pairwise_ne_append_singleton
                  (fun r : QuizAnswer => (r.attemptId, r.questionId)) db.quizAnswers
                  ⟨attempt.id, a.questionId, some oid, opt.isCorrect,
                    if opt.isCorrect then q.points else 0⟩ hu hrow
                have h2 := huniq happ
                rw [QuizAnswersUnique] at h2 ⊢
                rw [List.append_assoc] at h2
                simpa using h2
      · rw [if_neg hc]
        exact ih db (total + q.points) earned

/-- The database state of a submission after grading and saving the
attempt, before the conditional progress update. -/
def submitMid (db : DB) (attempt att : QuizAttempt) (answers : List AnswerData) : DB :=
  { db with
    quizAnswers := db.quizAnswers ++ storedRows db attempt.id attempt.quizId answers
    quizAttempts := saveAttempt db.quizAttempts att }

/-- Anatomy of a successful `submit`: the attempt was fetched for the
requesting user, was not previously completed, and the response attempt
carries the computed score, pass flag and completion time, with the final
state determined by the pass flag. -/
theorem submit_ok_structure (db : DB) (u aid : Nat) (answers : List AnswerData)
    (now : Nat) (db1 : DB) (att : QuizAttempt)
    (h : submit db u aid answers now = (db1, .ok att)) :
    ∃ attempt quiz,
      findAttemptForUser db aid u = some attempt ∧
      attempt.completedAt = none ∧
      db.quizzes.find? (fun qz => qz.id == attempt.quizId) = some quiz ∧
      att.id = attempt.id ∧
      att.enrollmentId = attempt.enrollmentId ∧
      att.quizId = attempt.quizId ∧
      att.attemptNumber = attempt.attemptNumber ∧
      att.completedAt = some now ∧
      att.score = (if 0 < submittedTotal db attempt.quizId answers then
        ((submittedEarned db attempt.quizId answers : ℚ) /
          (submittedTotal db attempt.quizId answers : ℚ)) * 100 else 0) ∧
      att.passed = decide (att.score ≥ (quiz.passingScore : ℚ)) ∧
      db1 = (if att.passed then
        markQuizProgress (submitMid db attempt att answers) att quiz now
      else submitMid db attempt att answers) := by
  rw [submit] at h
  cases hfa : findAttemptForUser db aid u with
  | none => rw [hfa] at h; simp at h
  | some attempt =>
    rw [hfa] at h
    dsimp only at h
    by_cases hca : attempt.completedAt.isSome = true
    · rw [if_pos hca] at h; simp at h
    · rw [if_neg hca] at h
      cases hqz : db.quizzes.find? (fun qz => qz.id == attempt.quizId) with
      | none => rw [hqz] at h; simp at h
      | some quiz =>
        rw [hqz] at h
        dsimp only at h
        cases hpa : submitProcessAnswers attempt db 0 0 answers with
        | mk dbm rr =>
          rw [hpa] at h
          cases rr with
          | error e => simp at h
          | ok pr =>
            cases pr with
            | mk total earned =>
              dsimp only at h
              rw [Prod.mk.injEq] at h
              obtain ⟨hdb1, hatt⟩ := h
              rw [Except.ok.injEq] at hatt
              obtain ⟨ht, he, hdbm⟩ :=
                submitProcessAnswers_ok_spec attempt answers db 0 0 dbm total earned hpa
              rw [zero_add] at ht he
              refine ⟨attempt, quiz, rfl, ?_, hqz, ?_, ?_, ?_, ?_, ?_, ?_, ?_, ?_⟩
              · exact Option.not_isSome_iff_eq_none.mp hca
              · rw [← hatt]
              · rw [← hatt]
              · rw [← hatt]
              · rw [← hatt]
              · rw [← hatt]
              · rw [← hatt, ht, he]
              · rw [← hatt]
              · rw [← hdb1, ← hatt, hdbm, submitMid]

/-- Marking quiz progress leaves a completed, dated progress row for the
attempt's enrollment and the quiz's content. -/
theorem markQuizProgress_marks (db : DB) (attempt : QuizAttempt) (quiz : Quiz) (now : Nat) :
    (markQuizProgress db attempt quiz now).progressRecords.any
      (fun p => p.enrollmentId == attempt.enrollmentId &&
        p.contentId == quiz.contentId && p.isCompleted &&
        p.completionDate == some now) = true := by
  rw [markQuizProgress]
  dsimp only
  cases hf : db.progressRecords.find? (fun p =>
      p.enrollmentId == attempt.enrollmentId && p.contentId == quiz.contentId) with
  | none =>
    dsimp only
    exact upsert_any _ _ _ _ (by simp)
  | some p0 =>
    dsimp only
    have hkey := List.find?_some hf
    simp only [Bool.and_eq_true, beq_iff_eq] at hkey
    exact upsert_any _ _ _ _ (by simp [hkey.1, hkey.2])

/-- Marking quiz progress preserves at most one progress row per
`(enrollment, content)`. -/
theorem markQuizProgress_unique (db : DB) (attempt : QuizAttempt) (quiz : Quiz)
    (now : Nat) (h : ProgressUnique db.progressRecords) :
    ProgressUnique (markQuizProgress db attempt quiz now).progressRecords := by
  rw [markQuizProgress]
  dsimp only
  cases hf : db.progressRecords.find? (fun p =>
      p.enrollmentId == attempt.enrollmentId && p.contentId == quiz.contentId) with
  | none =>
    dsimp only
    exact upsert_pairwise _ (fun p : Progress => (p.enrollmentId, p.contentId)) _ _
      (by intro r; simp [Prod.ext_iff]) h
  | some p0 =>
    dsimp only
    have hkey := List.find?_some hf
    simp only [Bool.and_eq_true, beq_iff_eq] at hkey
    exact upsert_pairwise _ (fun p : Progress => (p.enrollmentId, p.contentId)) _ _
      (by intro r; simp [Prod.ext_iff, hkey.1, hkey.2]) h

end SubmitLemmas

section SubmitClaims

/-- C1: for every successful quiz-attempt submission, the recorded score
equals (earned points / total points of the submitted questions) * 100,
with score 0 when the total is 0, and the attempt's `passed` flag is set
if and only if this score is at least the quiz's configured
`passing_score`. -/
theorem C1_submission_score_and_pass (db : DB) (u aid : Nat)
    (answers : List AnswerData) (now : Nat) (db1 : DB) (att : QuizAttempt) (quiz : Quiz)
    (h : submit db u aid answers now = (db1, .ok att))
    (hquiz : db.quizzes.find? (fun qz => qz.id == att.quizId) = some quiz) :
    att.score = (if 0 < submittedTotal db att.quizId answers then
      ((submittedEarned db att.quizId answers : ℚ) /
        (submittedTotal db att.quizId answers : ℚ)) * 100 else 0) ∧
    (att.passed = true ↔ att.score ≥ (quiz.passingScore : ℚ)) := by
  obtain ⟨attempt, quiz0, hfa, hcan, hqz, hid, hen, hqid, hnum, hcomp, hscore, hpass, hdb⟩ :=
    submit_ok_structure db u aid answers now db1 att h
  rw [hqid, hqz] at hquiz
  have hq0 : quiz0 = quiz := by injection hquiz
  subst hq0
  refine ⟨by rw [hqid]; exact hscore, ?_⟩
  rw [hpass]
  exact decide_eq_true_iff

/-- C2: a submission that passes upserts the progress row for the quiz's
content under the same enrollment, marked completed with a completion
date; a submission that does not pass neither creates nor modifies any
progress row. -/
theorem C2_submission_progress_effect (db : DB) (u aid : Nat)
    (answers : List AnswerData) (now : Nat) (db1 : DB) (att : QuizAttempt) (quiz : Quiz)
    (h : submit db u aid answers now = (db1, .ok att))
    (hquiz : db.quizzes.find? (fun qz => qz.id == att.quizId) = some quiz) :
    (att.passed = true →
      db1.progressRecords.any (fun p => p.enrollmentId == att.enrollmentId &&
        p.contentId == quiz.contentId && p.isCompleted &&
        p.completionDate == some now) = true) ∧
    (att.passed = false → db1.progressRecords = db.progressRecords) := by
  obtain ⟨attempt, quiz0, hfa, hcan, hqz, hid, hen, hqid, hnum, hcomp, hscore, hpass, hdb⟩ :=
    submit_ok_structure db u aid answers now db1 att h
  rw [hqid, hqz] at hquiz
  have hq0 : quiz0 = quiz := by injection hquiz
  subst hq0
  constructor
  · intro hp
    rw [hdb, if_pos hp]
    exact markQuizProgress_marks _ att quiz0 now
  · intro hp
    rw [hdb, if_neg (by rw [hp]; exact Bool.false_ne_true)]
    rfl

/-- C10: only `multiple_choice` answers with a (truthy) selected option are
stored as `QuizAnswer` rows and can earn points; answers to `true_false`
or `short_answer` questions store nothing and earn zero, while their
question's points still enter the score denominator. -/
theorem C10_grading_by_question_type (db : DB) (u aid : Nat)
    (answers : List AnswerData) (now : Nat) (db1 : DB) (att : QuizAttempt)
    (h : submit db u aid answers now = (db1, .ok att)) :
    db1.quizAnswers = db.quizAnswers ++ storedRows db att.id att.quizId answers ∧
    (∀ a ∈ answers, answerStored db att.quizId a = true ↔
      (∃ q : Question, findQuestion db a.questionId att.quizId = some q ∧
        q.questionType = "multiple_choice" ∧ truthyOption a.selectedOptionId = true)) ∧
    (∀ a ∈ answers, ∀ q : Question,
      findQuestion db a.questionId att.quizId = some q →
      q.questionType ≠ "multiple_choice" →
      answerStored db att.quizId a = false ∧
      answerEarnedPoints db att.quizId a = 0 ∧
      answerQuestionPoints db att.quizId a = q.points) ∧
    att.score = (if 0 < submittedTotal db att.quizId answers then
      ((submittedEarned db att.quizId answers : ℚ) /
        (submittedTotal db att.quizId answers : ℚ)) * 100 else 0) := by
  obtain ⟨attempt, quiz0, hfa, hcan, hqz, hid, hen, hqid, hnum, hcomp, hscore, hpass, hdb⟩ :=
    submit_ok_structure db u aid answers now db1 att h
  refine ⟨?_, ?_, ?_, by rw [hqid]; exact hscore⟩
  · rw [hdb, hid, hqid]
    by_cases hp : att.passed = true
    · rw [if_pos hp]
      rfl
    · rw [if_neg hp]
      rfl
  · intro a _
    rw [hqid, answerStored]
    cases hfq : findQuestion db a.questionId attempt.quizId with
    | none => simp
    | some q =>
      simp only [Bool.and_eq_true, beq_iff_eq]
      constructor
      · intro hx
        exact ⟨q, rfl, hx.1, hx.2⟩
      · rintro ⟨q2, hq2, ht2, ho2⟩
        have hq2q : q2 = q := by injection hq2 with hh; exact hh.symm
        subst hq2q
        exact ⟨ht2, ho2⟩
  · intro a _ q hfq hnm
    rw [hqid] at hfq ⊢
    have hst : answerStored db attempt.quizId a = false := by
      rw [answerStored, hfq]
      simp [hnm]
    refine ⟨hst, ?_, ?_⟩
    · simp [answerEarnedPoints, hst]
    · simp [answerQuestionPoints, hfq]

/-- C7: submitting answers fails with `Quiz already submitted`, leaving
the whole state untouched, exactly when the attempt already has a
`completed_at` timestamp. -/
theorem C7_resubmission_guard (db : DB) (u aid : Nat)
    (answers : List AnswerData) (now : Nat) (att : QuizAttempt)
    (hfa : findAttemptForUser db aid u = some att) :
    submit db u aid answers now = (db, .error "Quiz already submitted") ↔
      att.completedAt.isSome = true := by
  constructor
  · intro h
    by_contra hca
    rw [submit, hfa] at h
    dsimp only at h
    rw [if_neg hca] at h
    cases hqz : db.quizzes.find? (fun qz => qz.id == att.quizId) with
    | none => rw [hqz] at h; simp at h
    | some quiz =>
      rw [hqz] at h
      dsimp only at h
      cases hpa : submitProcessAnswers att db 0 0 answers with
      | mk dbm rr =>
        rw [hpa] at h
        cases rr with
        | error e =>
          dsimp only at h
          rw [Prod.mk.injEq] at h
          obtain ⟨h1, h2⟩ := h
          rw [Except.error.injEq] at h2
          exact (submitProcessAnswers_state att answers db 0 0).2 e
            (by rw [hpa]) h2
        | ok pr =>
          cases pr with
          | mk t e =>
            dsimp only at h
            simp at h
  · intro hca
    rw [submit, hfa]
    dsimp only
    rw [if_pos hca]

end SubmitClaims

section StartClaims

/-- C9: per `(enrollment, quiz)` the attempt count never exceeds the
quiz's `max_attempts`: `start` fails with `Maximum attempts reached` when
the existing count has already reached the limit, and otherwise creates
attempt number `count + 1`, keeping the count within the limit. -/
theorem C9_attempt_limit (db : DB) (u quizId newId : Nat) (quiz : Quiz)
    (courseId : Nat) (enrollment : Enrollment)
    (hq : db.quizzes.find? (fun q => q.id == quizId) = some quiz)
    (hc : quizCourse db quiz = some courseId)
    (he : findActiveEnrollment db u courseId = some enrollment) :
    (attemptCount db enrollment.id quiz.id ≥ quiz.maxAttempts →
      start db u quizId newId = (db, .error "Maximum attempts reached")) ∧
    (attemptCount db enrollment.id quiz.id < quiz.maxAttempts →
      ∃ att : QuizAttempt,
        start db u quizId newId =
          ({ db with quizAttempts := db.quizAttempts ++ [att] }, .ok att) ∧
        att.attemptNumber = attemptCount db enrollment.id quiz.id + 1 ∧
        attemptCount (start db u quizId newId).1 enrollment.id quiz.id =
          attemptCount db enrollment.id quiz.id + 1) ∧
    (attemptCount db enrollment.id quiz.id ≤ quiz.maxAttempts →
      attemptCount (start db u quizId newId).1 enrollment.id quiz.id ≤
        quiz.maxAttempts) := by
  have hstart : start db u quizId newId =
      (if attemptCount db enrollment.id quiz.id ≥ quiz.maxAttempts then
        (db, .error "Maximum attempts reached")
      else
        ({ db with quizAttempts := db.quizAttempts ++
            [⟨newId, enrollment.id, quiz.id, 0, false,
              attemptCount db enrollment.id quiz.id + 1, none⟩] },
          .ok ⟨newId, enrollment.id, quiz.id, 0, false,
            attemptCount db enrollment.id quiz.id + 1, none⟩)) := by
    rw [start, hq]
    dsimp only
    rw [hc]
    dsimp only
    rw [he]
  by_cases hlim : attemptCount db enrollment.id quiz.id ≥ quiz.maxAttempts
  · rw [hstart, if_pos hlim]
    refine ⟨fun _ => rfl, fun hlt => absurd hlim (by omega), fun hle => ?_⟩
    exact hle
  · rw [hstart, if_neg hlim]
    have hcount : attemptCount
        { db with quizAttempts := db.quizAttempts ++
          [⟨newId, enrollment.id, quiz.id, 0, false,
            attemptCount db enrollment.id quiz.id + 1, none⟩] }
        enrollment.id quiz.id = attemptCount db enrollment.id quiz.id + 1 := by
      rw [attemptCount, attemptCount]
      dsimp only
      rw [List.filter_append]
      simp
    refine ⟨fun hge => absurd hge hlim, fun _ => ?_, fun _ => ?_⟩
    · exact ⟨_, rfl, rfl, hcount⟩
    · rw [hcount]
      omega

end StartClaims

section AttendanceLemmas

/-- A `present` attendance record for `(session, user)` exists. -/
def hasPresentRecord (db : DB) (sessionId userId : Nat) : Bool :=
  db.attendanceRecords.any (fun r => r.sessionId == sessionId &&
    r.userId == userId && r.status == "present")

theorem attendanceUpdateOrCreate_creates (db : DB) (sid uid : Nat) :
    hasPresentRecord (attendanceUpdateOrCreate db sid uid "present") sid uid = true := by
  rw [attendanceUpdateOrCreate, hasPresentRecord]
  dsimp only
  by_cases hk : db.attendanceRecords.any
      (fun r => r.sessionId == sid && r.userId == uid) = true
  · rw [if_pos hk]
    obtain ⟨r, hr, hkr⟩ := List.any_eq_true.mp hk
    refine List.any_eq_true.mpr ⟨_, List.mem_map.mpr ⟨r, hr, rfl⟩, ?_⟩
    rw [if_pos hkr]
    simp only [Bool.and_eq_true, beq_iff_eq] at hkr
    simp [hkr.1, hkr.2]
  · rw [if_neg hk]
    exact List.any_eq_true.mpr ⟨⟨sid, uid, "present"⟩, by simp, by simp⟩

/-- Marking one `(session, user)` pair present never destroys an existing
`present` record of any pair. -/
theorem attendanceUpdateOrCreate_mono (db : DB) (sid uid sid2 uid2 : Nat)
    (h : hasPresentRecord db sid2 uid2 = true) :
    hasPresentRecord (attendanceUpdateOrCreate db sid uid "present") sid2 uid2 = true := by
  rw [attendanceUpdateOrCreate]
  rw [hasPresentRecord] at h ⊢
  dsimp only
  by_cases hk : db.attendanceRecords.any
      (fun r => r.sessionId == sid && r.userId == uid) = true
  · rw [if_pos hk]
    obtain ⟨r, hr, hpr⟩ := List.any_eq_true.mp h
    refine List.any_eq_true.mpr ⟨_, List.mem_map.mpr ⟨r, hr, rfl⟩, ?_⟩
    by_cases hkr : (r.sessionId == sid && r.userId == uid) = true
    · rw [if_pos hkr]
      simp only [Bool.and_eq_true, beq_iff_eq] at hpr ⊢
      exact ⟨⟨hpr.1.1, hpr.1.2⟩, by simp⟩
    · rw [if_neg hkr]
      exact hpr
  · rw [if_neg hk, List.any_append]
    rw [h]
    rfl

/-- Updating only rows an identifier-based selection cannot see, and
whose update keeps the selection unchanged, does not change the selected
rows. -/
theorem filter_map_id_on {t : Type} (f : t → t) (sel : t → Bool) (l : List t)
    (h1 : ∀ r, sel r = true → f r = r) (h2 : ∀ r, sel (f r) = sel r) :
    (l.map f).filter sel = l.filter sel := by
  induction l with
  | nil => rfl
  | cons a tl ih =>
    rw [List.map_cons, List.filter_cons, List.filter_cons, h2 a]
    cases hsa : sel a with
    | false => simpa using ih
    | true =>
      rw [h1 a hsa]
      simpa using ih

/-- `update_or_create` for one session leaves the records of every other
session untouched. -/
theorem attendanceUpdateOrCreate_other (db : DB) (sid uid : Nat) (st : String)
    (sid2 : Nat) (hne : sid2 ≠ sid) :
    (attendanceUpdateOrCreate db sid uid st).attendanceRecords.filter
      (fun r => r.sessionId == sid2) =
      db.attendanceRecords.filter (fun r => r.sessionId == sid2) := by
  rw [attendanceUpdateOrCreate]
  dsimp only
  by_cases hk : db.attendanceRecords.any
      (fun r => r.sessionId == sid && r.userId == uid) = true
  · rw [if_pos hk]
    refine filter_map_id_on _ _ _ ?_ ?_
    · intro r hsel
      simp only [beq_iff_eq] at hsel
      rw [if_neg (by simp [hsel, hne])]
    · intro r
      by_cases hkr : (r.sessionId == sid && r.userId == uid) = true
      · rw [if_pos hkr]
      · rw [if_neg hkr]
  · rw [if_neg hk, List.filter_append]
    have : (([⟨sid, uid, st⟩] : List AttendanceRecord).filter
        (fun r => r.sessionId == sid2)) = [] := by
      simp [Ne.symm hne]
    rw [this, List.append_nil]

theorem attendanceUpdateOrCreate_unique (db : DB) (sid uid : Nat) (st : String)
    (h : AttendanceUnique db.attendanceRecords) :
    AttendanceUnique (attendanceUpdateOrCreate db sid uid st).attendanceRecords := by
  rw [attendanceUpdateOrCreate]
  dsimp only
  by_cases hk : db.attendanceRecords.any
      (fun r => r.sessionId == sid && r.userId == uid) = true
  · rw [if_pos hk]
    refine pairwise_ne_map_key (fun r : AttendanceRecord => (r.sessionId, r.userId)) _ _ ?_ h
    intro x _
    by_cases hkx : (x.sessionId == sid && x.userId == uid) = true
    · rw [if_pos hkx]
    · rw [if_neg hkx]
  · rw [if_neg hk]
    refine pairwise_ne_append_singleton (fun r : AttendanceRecord => (r.sessionId, r.userId))
      _ _ h ?_
    intro y hy hky
    refine absurd (List.any_eq_true.mpr ⟨y, hy, ?_⟩) hk
    rw [Prod.mk.injEq] at hky
    simp [hky.1, hky.2]

theorem autoMarkAttendance_cons (db : DB) (uid : Nat) (a : AttendanceSession)
    (t : List AttendanceSession) :
    autoMarkAttendance db uid (a :: t) =
      autoMarkAttendance (attendanceUpdateOrCreate db a.id uid "present") uid t := rfl

theorem autoMarkAttendance_frame (uid : Nat) :
    ∀ (l : List AttendanceSession) (db : DB),
      (autoMarkAttendance db uid l).enrollments = db.enrollments ∧
      (autoMarkAttendance db uid l).progressRecords = db.progressRecords ∧
      (autoMarkAttendance db uid l).quizAnswers = db.quizAnswers ∧
      (autoMarkAttendance db uid l).attendanceSessions = db.attendanceSessions := by
  intro l
  induction l with
  | nil => intro db; exact ⟨rfl, rfl, rfl, rfl⟩
  | cons s t ih =>
    intro db
    rw [autoMarkAttendance, List.foldl_cons]
    exact ih (attendanceUpdateOrCreate db s.id uid "present")

theorem autoMarkAttendance_mono (uid sid2 uid2 : Nat) :
    ∀ (l : List AttendanceSession) (db : DB),
      hasPresentRecord db sid2 uid2 = true →
      hasPresentRecord (autoMarkAttendance db uid l) sid2 uid2 = true := by
  intro l
  induction l with
  | nil => intro db h; exact h
  | cons s t ih =>
    intro db h
    rw [autoMarkAttendance, List.foldl_cons]
    exact ih _ (attendanceUpdateOrCreate_mono db s.id uid sid2 uid2 h)

theorem autoMarkAttendance_covers (uid : Nat) :
    ∀ (l : List AttendanceSession) (db : DB) (s : AttendanceSession),
      s ∈ l →
      hasPresentRecord (autoMarkAttendance db uid l) s.id uid = true := by
  intro l
  induction l with
  | nil => intro db s hs; cases hs
  | cons a t ih =>
    intro db s hs
    rw [autoMarkAttendance, List.foldl_cons]
    rcases List.mem_cons.mp hs with rfl | hst
    · exact autoMarkAttendance_mono uid s.id uid t _
        (attendanceUpdateOrCreate_creates db s.id uid)
    · exact ih _ s hst

theorem autoMarkAttendance_other (uid sid2 : Nat) :
    ∀ (l : List AttendanceSession) (db : DB),
      (∀ s ∈ l, s.id ≠ sid2) →
      (autoMarkAttendance db uid l).attendanceRecords.filter
        (fun r => r.sessionId == sid2) =
        db.attendanceRecords.filter (fun r => r.sessionId == sid2) := by
  intro l
  induction l with
  | nil => intro db _; rfl
  | cons a t ih =>
    intro db hne
    rw [autoMarkAttendance_cons]
    rw [ih _ (fun s hs => hne s (by simp [hs]))]
    exact attendanceUpdateOrCreate_other db a.id uid "present" sid2
      (fun hcontra => hne a (by simp) hcontra.symm)

theorem autoMarkAttendance_unique (uid : Nat) :
    ∀ (l : List AttendanceSession) (db : DB),
      AttendanceUnique db.attendanceRecords →
      AttendanceUnique (autoMarkAttendance db uid l).attendanceRecords := by
  intro l
  induction l with
  | nil => intro db h; exact h
  | cons s t ih =>
    intro db h
    rw [autoMarkAttendance, List.foldl_cons]
    exact ih _ (attendanceUpdateOrCreate_unique db s.id uid "present" h)

end AttendanceLemmas

section ProgressUpdateClaims

/-- A successful `update_progress` resolves its lookups and ends by
auto-marking attendance for the required sessions linked to the content,
starting from a state that differs from the input only in progress rows. -/
theorem update_progress_ok_shape (db : DB) (u : Nat) (data : ProgressUpdateData)
    (now : Nat) (db1 : DB) (p : Progress)
    (h : update_progress db u data now = (db1, .ok p)) :
    ∃ (content : Content) (M : DB),
      db1 = autoMarkAttendance M u (db.attendanceSessions.filter
        (fun s => s.linkedContent == some content.id && s.isRequired)) ∧
      db.contents.find? (fun c => c.id == data.contentId) = some content ∧
      content.id = data.contentId ∧
      M.attendanceRecords = db.attendanceRecords ∧
      M.attendanceSessions = db.attendanceSessions := by
  rw [update_progress] at h
  cases hc : db.contents.find? (fun c => c.id == data.contentId) with
  | none => rw [hc] at h; simp at h
  | some content =>
    rw [hc] at h
    dsimp only at h
    cases hcc : contentCourse db content with
    | none => rw [hcc] at h; simp at h
    | some courseId =>
      rw [hcc] at h
      dsimp only at h
      cases he : findActiveEnrollment db u courseId with
      | none => rw [he] at h; simp at h
      | some enrollment =>
        rw [he] at h
        dsimp only at h
        rw [Prod.mk.injEq] at h
        obtain ⟨hdb1, hpv⟩ := h
        have hcid : content.id = data.contentId := by
          have := List.find?_some hc
          simpa using this
        exact ⟨content, _, hdb1.symm, rfl, hcid, rfl, rfl⟩

/-- C3: after a successful progress update by an enrolled user on a
content item, every required attendance session linked to that content
has a `present` attendance record for the user (created or updated in
place), while records of sessions that are not required or not linked to
the content are untouched. -/
theorem C3_progress_update_auto_attendance (db : DB) (u : Nat)
    (data : ProgressUpdateData) (now : Nat) (db1 : DB) (p : Progress)
    (hpk : db.attendanceSessions.Pairwise (fun a b => a.id ≠ b.id))
    (h : update_progress db u data now = (db1, .ok p)) :
    (∀ s ∈ db.attendanceSessions,
      s.linkedContent = some data.contentId → s.isRequired = true →
      hasPresentRecord db1 s.id u = true) ∧
    (∀ s ∈ db.attendanceSessions,
      ¬(s.linkedContent = some data.contentId ∧ s.isRequired = true) →
      db1.attendanceRecords.filter (fun r => r.sessionId == s.id) =
        db.attendanceRecords.filter (fun r => r.sessionId == s.id)) := by
  obtain ⟨content, M, hdb1, hc, hcid, hMrec, hMsess⟩ :=
    update_progress_ok_shape db u data now db1 p h
  constructor
  · intro s hs hlink hreq
    rw [hdb1]
    refine autoMarkAttendance_covers u _ M s (List.mem_filter.mpr ⟨hs, ?_⟩)
    simp [hlink, hcid, hreq]
  · intro s hs hnot
    rw [hdb1]
    rw [autoMarkAttendance_other u s.id _ M ?_, hMrec]
    intro s2 hs2 hs2id
    have hs2mem := (List.mem_filter.mp hs2).1
    have hs2prop := (List.mem_filter.mp hs2).2
    have : s2 = s := eq_of_mem_of_id_pairwise (fun x => x.id) hpk hs2mem hs hs2id
    subst this
    simp only [Bool.and_eq_true, beq_iff_eq] at hs2prop
    exact hnot ⟨hcid ▸ hs2prop.1, hs2prop.2⟩

end ProgressUpdateClaims

section PaymentClaims

/-- The payment row with a given primary key. -/
def paymentById (db : DB) (pid : Nat) : Option Payment :=
  db.payments.find? (fun p => p.id == pid)

/-- C4: a payment-verification request creates (or reactivates, with
`is_active = true`) the `(user, course)` enrollment and marks the payment
`completed` if and only if the HMAC-SHA256 hex digest of
`"order_id|payment_id"` under the configured key secret equals the
submitted signature; on mismatch the payment is marked `failed` and the
enrollments table is untouched. -/
theorem C4_payment_verification (hmacSha256Hex : String → String → String)
    (keySecret : String) (db : DB) (u : Nat) (d : VerifyPaymentData)
    (now newEnrollmentId : Nat) (payment : Payment)
    (hp : findPaymentFor db d.razorpayOrderId u d.courseId = some payment) :
    (hmacSha256Hex keySecret (d.razorpayOrderId ++ "|" ++ d.razorpayPaymentId) =
        d.razorpaySignature →
      ((verify_payment hmacSha256Hex keySecret db u d now newEnrollmentId).1.enrollments.any
        (fun e => e.userId == u && e.courseId == payment.courseId && e.isActive)) = true ∧
      paymentById (verify_payment hmacSha256Hex keySecret db u d now newEnrollmentId).1
          payment.id =
        some { payment with
          razorpayPaymentId := some d.razorpayPaymentId
          razorpaySignature := some d.razorpaySignature
          status := "completed"
          completedAt := some now }) ∧
    (hmacSha256Hex keySecret (d.razorpayOrderId ++ "|" ++ d.razorpayPaymentId) ≠
        d.razorpaySignature →
      (verify_payment hmacSha256Hex keySecret db u d now newEnrollmentId).1.enrollments =
        db.enrollments ∧
      paymentById (verify_payment hmacSha256Hex keySecret db u d now newEnrollmentId).1
          payment.id =
        some { payment with
          status := "failed"
          errorMessage := "Invalid payment signature" } ∧
      (verify_payment hmacSha256Hex keySecret db u d now newEnrollmentId).2 =
        .error "Payment verification failed") := by
  have hx0 : ∃ x0, db.payments.find? (fun y => y.id == payment.id) = some x0 := by
    rw [← Option.isSome_iff_exists]
    refine List.find?_isSome.mpr ⟨payment, List.mem_of_find?_eq_some hp, by simp⟩
  obtain ⟨x0, hx0⟩ := hx0
  constructor
  · intro hsig
    rw [verify_payment, hp]
    dsimp only
    rw [if_neg (by simpa using hsig)]
    cases hee : db.enrollments.find? (fun e =>
        e.userId == u && e.courseId == payment.courseId) with
    | some e =>
      dsimp only
      constructor
      · have hekey := List.find?_some hee
        simp only [Bool.and_eq_true, beq_iff_eq] at hekey
        refine List.any_eq_true.mpr ⟨_, List.mem_map.mpr
          ⟨e, List.mem_of_find?_eq_some hee, rfl⟩, ?_⟩
        rw [if_pos (by simp)]
        simp [hekey.1, hekey.2]
      · rw [paymentById]
        dsimp only
        exact find_map_update Payment.id (fun _ => { payment with
          razorpayPaymentId := some d.razorpayPaymentId
          razorpaySignature := some d.razorpaySignature
          status := "completed"
          completedAt := some now }) payment.id (fun y hy => hy.symm ▸ rfl)
          db.payments x0 hx0
    | none =>
      dsimp only
      constructor
      · rw [List.any_append]
        have : (([⟨newEnrollmentId, u, payment.courseId, true⟩] :
            List Enrollment).any (fun e => e.userId == u &&
              e.courseId == payment.courseId && e.isActive)) = true := by
          simp
        rw [this, Bool.or_true]
      · rw [paymentById]
        dsimp only
        exact find_map_update Payment.id (fun _ => { payment with
          razorpayPaymentId := some d.razorpayPaymentId
          razorpaySignature := some d.razorpaySignature
          status := "completed"
          completedAt := some now }) payment.id (fun y hy => hy.symm ▸ rfl)
          db.payments x0 hx0
  · intro hsig
    rw [verify_payment, hp]
    dsimp only
    rw [if_pos (by simpa using hsig)]
    refine ⟨rfl, ?_, rfl⟩
    rw [paymentById]
    dsimp only
    exact find_map_update Payment.id (fun _ => { payment with
      status := "failed"
      errorMessage := "Invalid payment signature" }) payment.id
      (fun y hy => hy.symm ▸ rfl) db.payments x0 hx0

end PaymentClaims

section ProgressPercentageClaims

/-- `round2` always lands on a grid point of 1/100. -/
theorem round2_grid (x : ℚ) : ∃ n : ℤ, round2 x = (n : ℚ) / 100 := ⟨_, rfl⟩

/-- Rounding to two decimal places moves the value by at most half a
hundredth. -/
theorem round2_close (x : ℚ) : |round2 x - x| ≤ 1 / 200 := by
  rw [round2]
  set s := x * 100 with hs
  have h0 : (⌊s⌋ : ℚ) ≤ s := Int.floor_le s
  have h1 : s < ⌊s⌋ + 1 := Int.lt_floor_add_one s
  have key : ∀ n : ℤ, |(n : ℚ) - s| ≤ 1/2 → |(n : ℚ)/100 - x| ≤ 1/200 := by
    intro n hn
    have hdiff : (n : ℚ)/100 - x = ((n : ℚ) - s)/100 := by
      rw [hs]; ring
    rw [hdiff, abs_div, abs_of_nonneg (by norm_num : (0:ℚ) ≤ 100)]
    linarith
  by_cases hc1 : s - ⌊s⌋ < 1/2
  · rw [if_pos hc1]
    refine key ⌊s⌋ ?_
    rw [abs_le]
    constructor <;> linarith
  · rw [if_neg hc1]
    by_cases hc2 : 1/2 < s - ⌊s⌋
    · rw [if_pos hc2]
      refine key (⌊s⌋ + 1) ?_
      rw [abs_le]
      push_cast
      constructor <;> linarith
    · rw [if_neg hc2]
      by_cases hc3 : ⌊s⌋ % 2 = 0
      · rw [if_pos hc3]
        refine key ⌊s⌋ ?_
        rw [abs_le]
        constructor <;> linarith
      · rw [if_neg hc3]
        refine key (⌊s⌋ + 1) ?_
        rw [abs_le]
        push_cast
        constructor <;> linarith

/-- C6: the aggregated progress percentage is (completed progress records
of the enrollment / total contents of the course) * 100, rounded to two
decimal places (so it sits on a 1/100 grid within 1/200 of the exact
ratio), and is 0 when the course has no contents. -/
theorem C6_progress_percentage (db : DB) (e : Enrollment) :
    (db.contents.countP (fun c => contentInCourse db c e.courseId) = 0 →
      progress_percentage db e = 0) ∧
    (0 < db.contents.countP (fun c => contentInCourse db c e.courseId) →
      progress_percentage db e = round2
        (((db.progressRecords.countP
            (fun p => p.enrollmentId == e.id && p.isCompleted) : ℚ) /
          (db.contents.countP (fun c => contentInCourse db c e.courseId) : ℚ)) * 100) ∧
      (∃ n : ℤ, progress_percentage db e = (n : ℚ) / 100) ∧
      |progress_percentage db e -
        ((db.progressRecords.countP
            (fun p => p.enrollmentId == e.id && p.isCompleted) : ℚ) /
          (db.contents.countP (fun c => contentInCourse db c e.courseId) : ℚ)) * 100| ≤
        1 / 200) := by
  have hcount : db.contents.countP (fun c => contentInCourse db c e.courseId) =
      (db.contents.filter (fun c => contentInCourse db c e.courseId)).length :=
    List.countP_eq_length_filter _ _
  have hcomp : db.progressRecords.countP
      (fun p => p.enrollmentId == e.id && p.isCompleted) =
      (db.progressRecords.filter (fun p => p.enrollmentId == e.id && p.isCompleted)).length :=
    List.countP_eq_length_filter _ _
  constructor
  · intro h0
    rw [progress_percentage]
    dsimp only
    rw [if_pos (by rw [← hcount]; exact h0)]
  · intro hpos
    have heq : progress_percentage db e = round2
        (((db.progressRecords.countP
            (fun p => p.enrollmentId == e.id && p.isCompleted) : ℚ) /
          (db.contents.countP (fun c => contentInCourse db c e.courseId) : ℚ)) * 100) := by
      rw [progress_percentage]
      dsimp only
      rw [if_neg (by rw [← hcount]; omega), hcount, hcomp]
    refine ⟨heq, heq ▸ round2_grid _, heq ▸ round2_close _⟩

end ProgressPercentageClaims

section ChatClaims

/-- At most one `ChatMessageReadReceipt` per `(message, user)`. -/
def ReceiptsUnique (l : List ChatMessageReadReceipt) : Prop :=
  l.Pairwise (fun a b => (a.messageId, a.userId) ≠ (b.messageId, b.userId))

/-- `mark_as_read` never changes a message's id. -/
theorem mark_as_read_id (m : ChatMessage) (now : Nat) :
    (mark_as_read m now).id = m.id := by
  rw [mark_as_read]
  split <;> rfl

/-- A truthy `message_id` event always saves the receipt and broadcasts. -/
theorem handle_read_receipt_truthy (db : ChatDB) (u mid now : Nat) (hmid : mid ≠ 0) :
    handle_read_receipt db u (some mid) now =
      (save_read_receipt db u mid now, [⟨"read_receipt_broadcast", mid, u, now⟩]) := by
  rw [handle_read_receipt]
  rw [if_neg (by simpa using hmid)]

/-- C8 counterexample: a read_receipt event naming a message id that does
not exist does not leave everything unchanged — the broadcast to the
community group is still sent. -/
theorem C8_counterexample :
    ¬ (handle_read_receipt ⟨[], []⟩ 1 (some 5) 0 =
      ((⟨[], []⟩ : ChatDB), ([] : List GroupSend))) := by
  decide

/-- C8 (amended): a read_receipt event naming an existing message marks it
`read` with `read_at` set (and leaves it unchanged if already read),
preserves at-most-one-receipt-per-`(message, user)`, and broadcasts a
read_receipt to the community group; an event naming a non-existent
message leaves the database unchanged, but the broadcast is still sent. -/
theorem C8_read_receipt (db : ChatDB) (u mid now : Nat) (hmid : mid ≠ 0) :
    (∀ m, db.messages.find? (fun x => x.id == mid) = some m →
      ((handle_read_receipt db u (some mid) now).1.messages.find?
          (fun x => x.id == mid) = some (mark_as_read m now)) ∧
      (mark_as_read m now).status = "read" ∧
      (m.status ≠ "read" → (mark_as_read m now).readAt = some now) ∧
      (m.status = "read" → mark_as_read m now = m)) ∧
    (ReceiptsUnique db.readReceipts →
      ReceiptsUnique (handle_read_receipt db u (some mid) now).1.readReceipts) ∧
    ((handle_read_receipt db u (some mid) now).2 =
      [⟨"read_receipt_broadcast", mid, u, now⟩]) ∧
    (db.messages.find? (fun x => x.id == mid) = none →
      (handle_read_receipt db u (some mid) now).1 = db) := by
  rw [handle_read_receipt_truthy db u mid now hmid]
  refine ⟨?_, ?_, rfl, ?_⟩
  · intro m hm
    refine ⟨?_, ?_, ?_, ?_⟩
    · rw [save_read_receipt, hm]
      dsimp only
      exact find_map_update ChatMessage.id (fun x => mark_as_read x now) mid
        (fun y _ => mark_as_read_id y now) db.messages m hm
    · rw [mark_as_read]
      by_cases hst : m.status ≠ "read"
      · rw [if_pos hst]
      · rw [if_neg hst]
        exact not_not.mp hst
    · intro hst
      rw [mark_as_read, if_pos hst]
    · intro hst
      rw [mark_as_read, if_neg (by simp [hst])]
  · intro hu
    cases hm : db.messages.find? (fun x => x.id == mid) with
    | none =>
      rw [save_read_receipt, hm]
      exact hu
    | some m =>
      rw [save_read_receipt, hm]
      dsimp only
      by_cases hr : db.readReceipts.any
          (fun r => r.messageId == mid && r.userId == u) = true
      · rw [if_pos hr]
        exact hu
      · rw [if_neg hr]
        refine pairwise_ne_append_singleton
          (fun r : ChatMessageReadReceipt => (r.messageId, r.userId)) _ _ hu ?_
        intro y hy hky
        rw [Prod.mk.injEq] at hky
        exact hr (List.any_eq_true.mpr ⟨y, hy, by simp [hky.1, hky.2]⟩)
  · intro hm
    rw [save_read_receipt, hm]

end ChatClaims

section UniquenessClaims

theorem dbUnique_submit_branch (M : DB) (att : QuizAttempt) (quiz : Quiz)
    (now : Nat) (c : Bool)
    (hE : EnrollmentsUnique M.enrollments) (hP : ProgressUnique M.progressRecords)
    (hA : AttendanceUnique M.attendanceRecords) (hQ : QuizAnswersUnique M.quizAnswers) :
    dbUnique (if c = true then markQuizProgress M att quiz now else M) := by
  cases c
  · rw [if_neg (by simp)]
    exact ⟨hE, hP, hA, hQ⟩
  · rw [if_pos rfl]
    exact ⟨hE, markQuizProgress_unique M att quiz now hP, hA, hQ⟩

theorem submit_preserves_unique (db : DB) (u aid : Nat) (answers : List AnswerData)
    (now : Nat) (h : dbUnique db) : dbUnique (submit db u aid answers now).1 := by
  obtain ⟨hE, hP, hA, hQ⟩ := h
  rw [submit]
  cases hfa : findAttemptForUser db aid u with
  | none => exact ⟨hE, hP, hA, hQ⟩
  | some attempt =>
    dsimp only
    by_cases hca : attempt.completedAt.isSome = true
    · rw [if_pos hca]
      exact ⟨hE, hP, hA, hQ⟩
    · rw [if_neg hca]
      cases hqz : db.quizzes.find? (fun qz => qz.id == attempt.quizId) with
      | none => exact ⟨hE, hP, hA, hQ⟩
      | some quiz =>
        dsimp only
        obtain ⟨⟨rows, hstate, huniq⟩, _⟩ :=
          submitProcessAnswers_state attempt answers db 0 0
        cases hpa : submitProcessAnswers attempt db 0 0 answers with
        | mk dbm rr =>
          rw [hpa] at hstate
          dsimp only at hstate
          subst hstate
          cases rr with
          | error e => exact ⟨hE, hP, hA, huniq hQ⟩
          | ok pr =>
            cases pr with
            | mk total earned =>
              dsimp only
              exact dbUnique_submit_branch _ _ _ _ _ hE hP hA (huniq hQ)

theorem start_preserves_unique (db : DB) (u quizId newId : Nat) (h : dbUnique db) :
    dbUnique (start db u quizId newId).1 := by
  obtain ⟨hE, hP, hA, hQ⟩ := h
  rw [start]
  cases db.quizzes.find? (fun q => q.id == quizId) with
  | none => exact ⟨hE, hP, hA, hQ⟩
  | some quiz =>
    dsimp only
    cases quizCourse db quiz with
    | none => exact ⟨hE, hP, hA, hQ⟩
    | some courseId =>
      dsimp only
      cases findActiveEnrollment db u courseId with
      | none => exact ⟨hE, hP, hA, hQ⟩
      | some enrollment =>
        dsimp only
        split
        · exact ⟨hE, hP, hA, hQ⟩
        · exact ⟨hE, hP, hA, hQ⟩

theorem update_progress_preserves_unique (db : DB) (u : Nat)
    (data : ProgressUpdateData) (now : Nat) (h : dbUnique db) :
    dbUnique (update_progress db u data now).1 := by
  obtain ⟨hE, hP, hA, hQ⟩ := h
  rw [update_progress]
  cases hc : db.contents.find? (fun c => c.id == data.contentId) with
  | none => exact ⟨hE, hP, hA, hQ⟩
  | some content =>
    dsimp only
    cases hcc : contentCourse db content with
    | none => exact ⟨hE, hP, hA, hQ⟩
    | some courseId =>
      dsimp only
      cases he : findActiveEnrollment db u courseId with
      | none => exact ⟨hE, hP, hA, hQ⟩
      | some enrollment =>
        dsimp only
        refine ⟨?_, ?_, ?_, ?_⟩
        · rw [(autoMarkAttendance_frame u _ _).1]
          exact hE
        · rw [(autoMarkAttendance_frame u _ _).2.1]
          cases hf : db.progressRecords.find? (fun p =>
              p.enrollmentId == enrollment.id && p.contentId == content.id) with
          | none =>
            dsimp only
            refine upsert_pairwise _ (fun p : Progress => (p.enrollmentId, p.contentId))
              _ _ ?_ hP
            intro r
            obtain ⟨hk1, hk2⟩ := applyProgressUpdate_key
              ⟨enrollment.id, content.id, false, none, 0, 0⟩ data now
            simp [Prod.ext_iff, hk1, hk2]
          | some p0 =>
            dsimp only
            have hkey := List.find?_some hf
            simp only [Bool.and_eq_true, beq_iff_eq] at hkey
            refine upsert_pairwise _ (fun p : Progress => (p.enrollmentId, p.contentId))
              _ _ ?_ hP
            intro r
            obtain ⟨hk1, hk2⟩ := applyProgressUpdate_key p0 data now
            simp [Prod.ext_iff, hk1, hk2, hkey.1, hkey.2]
        · exact autoMarkAttendance_unique u _ _ hA
        · rw [(autoMarkAttendance_frame u _ _).2.2.1]
          exact hQ

theorem verify_payment_preserves_unique (hmacSha256Hex : String → String → String)
    (keySecret : String) (db : DB) (u : Nat) (d : VerifyPaymentData)
    (now newEnrollmentId : Nat)
    (hEpk : db.enrollments.Pairwise (fun a b => a.id ≠ b.id))
    (h : dbUnique db) :
    dbUnique (verify_payment hmacSha256Hex keySecret db u d now newEnrollmentId).1 := by
  obtain ⟨hE, hP, hA, hQ⟩ := h
  rw [verify_payment]
  cases hp : findPaymentFor db d.razorpayOrderId u d.courseId with
  | none => exact ⟨hE, hP, hA, hQ⟩
  | some payment =>
    dsimp only
    split
    · exact ⟨hE, hP, hA, hQ⟩
    · cases he : db.enrollments.find? (fun e =>
          e.userId == u && e.courseId == payment.courseId) with
      | some e =>
        dsimp only
        refine ⟨?_, hP, hA, hQ⟩
        refine pairwise_ne_map_key (fun x : Enrollment => (x.userId, x.courseId)) _ _ ?_ hE
        intro x hx
        by_cases hxe : (x.id == e.id) = true
        · rw [if_pos hxe]
          have : x = e := eq_of_mem_of_id_pairwise (fun y => y.id) hEpk hx
            (List.mem_of_find?_eq_some he) (by simpa using hxe)
          subst this
          rfl
        · rw [if_neg hxe]
      | none =>
        dsimp only
        refine ⟨?_, hP, hA, hQ⟩
        refine pairwise_ne_append_singleton (fun x : Enrollment => (x.userId, x.courseId))
          _ _ hE ?_
        intro y hy hky
        rw [Prod.mk.injEq] at hky
        refine List.find?_eq_none.mp he y hy ?_
        simp only [Bool.and_eq_true, beq_iff_eq]
        exact ⟨hky.1, hky.2⟩

/-- C5: every modelled operation preserves the database uniqueness
constraints: at most one `Enrollment` per `(user, course)`, one `Progress`
per `(enrollment, content)`, one `AttendanceRecord` per `(session, user)`
and one `QuizAnswer` per `(attempt, question)` (primary keys are unique in
any reachable state, which the enrollment-reactivation step relies on). -/
theorem C5_uniqueness_invariants (hmacSha256Hex : String → String → String)
    (keySecret : String) (db : DB) (u aid quizId newId : Nat)
    (answers : List AnswerData) (data : ProgressUpdateData)
    (d : VerifyPaymentData) (now newEnrollmentId : Nat)
    (hEpk : db.enrollments.Pairwise (fun a b => a.id ≠ b.id))
    (h : dbUnique db) :
    dbUnique (submit db u aid answers now).1 ∧
    dbUnique (start db u quizId newId).1 ∧
    dbUnique (update_progress db u data now).1 ∧
    dbUnique (verify_payment hmacSha256Hex keySecret db u d now newEnrollmentId).1 :=
  ⟨submit_preserves_unique db u aid answers now h,
   start_preserves_unique db u quizId newId h,
   update_progress_preserves_unique db u data now h,
   verify_payment_preserves_unique hmacSha256Hex keySecret db u d now
     newEnrollmentId hEpk h⟩

end UniquenessClaims

section Witnesses

deriving instance DecidableEq for Except

instance (db : DB) : Decidable (dbUnique db) := by
  unfold dbUnique EnrollmentsUnique ProgressUnique AttendanceUnique QuizAnswersUnique
  infer_instance

/-- A small concrete database: one course with one module, one content,
one quiz (passing score 70, max 3 attempts), two questions, two options,
one active enrollment, two attempts (the second already submitted), two
attendance sessions linked to the content (one required, one not) and one
pending payment. -/
def dbEx : DB :=
  ⟨[⟨1, 1, "multiple_choice", 2⟩, ⟨2, 1, "true_false", 3⟩],
   [⟨1, 1, true⟩, ⟨2, 1, false⟩],
   [⟨1, 1, 70, 3⟩],
   [⟨1, 1, 1, 0, false, 1, none⟩, ⟨2, 1, 1, 0, false, 2, some 3⟩],
   [],
   [⟨1, 1, 1, true⟩],
   [],
   [⟨1, 1⟩],
   [⟨1, 1⟩],
   [⟨1, 1, true, some 1⟩, ⟨2, 1, false, some 1⟩],
   [],
   [⟨1, 1, 1, "o1", none, none, "pending", "", none⟩]⟩

/-- The attempt returned by submitting no answers on `dbEx`. -/
def attEx : QuizAttempt := ⟨1, 1, 1, 0, false, 1, some 5⟩

/-- `dbEx` after that submission: only the attempt row changed. -/
def dbExSub : DB :=
  { dbEx with quizAttempts := [attEx, ⟨2, 1, 1, 0, false, 2, some 3⟩] }

theorem C1_witness :
    submit dbEx 1 1 [] 5 = (dbExSub, .ok attEx) ∧
    dbEx.quizzes.find? (fun qz => qz.id == attEx.quizId) = some ⟨1, 1, 70, 3⟩ ∧
    (attEx.score = (if 0 < submittedTotal dbEx attEx.quizId [] then
      ((submittedEarned dbEx attEx.quizId [] : ℚ) /
        (submittedTotal dbEx attEx.quizId [] : ℚ)) * 100 else 0) ∧
     (attEx.passed = true ↔ attEx.score ≥ (((⟨1, 1, 70, 3⟩ : Quiz)).passingScore : ℚ))) :=
  ⟨by decide, by decide,
   C1_submission_score_and_pass dbEx 1 1 [] 5 dbExSub attEx ⟨1, 1, 70, 3⟩
     (by decide) (by decide)⟩

theorem C2_witness :
    submit dbEx 1 1 [] 5 = (dbExSub, .ok attEx) ∧
    dbEx.quizzes.find? (fun qz => qz.id == attEx.quizId) = some ⟨1, 1, 70, 3⟩ ∧
    ((attEx.passed = true →
      dbExSub.progressRecords.any (fun p => p.enrollmentId == attEx.enrollmentId &&
        p.contentId == (⟨1, 1, 70, 3⟩ : Quiz).contentId && p.isCompleted &&
        p.completionDate == some 5) = true) ∧
     (attEx.passed = false → dbExSub.progressRecords = dbEx.progressRecords)) :=
  ⟨by decide, by decide,
   C2_submission_progress_effect dbEx 1 1 [] 5 dbExSub attEx ⟨1, 1, 70, 3⟩
     (by decide) (by decide)⟩

theorem C10_witness :
    submit dbEx 1 1 [] 5 = (dbExSub, .ok attEx) ∧
    dbExSub.quizAnswers = dbEx.quizAnswers ++ storedRows dbEx attEx.id attEx.quizId [] :=
  ⟨by decide,
   (C10_grading_by_question_type dbEx 1 1 [] 5 dbExSub attEx (by decide)).1⟩

theorem C7_witness :
    findAttemptForUser dbEx 2 1 = some ⟨2, 1, 1, 0, false, 2, some 3⟩ ∧
    (submit dbEx 1 2 [] 9 = (dbEx, .error "Quiz already submitted") ↔
      (some 3 : Option Nat).isSome = true) :=
  ⟨by decide,
   C7_resubmission_guard dbEx 1 2 [] 9 ⟨2, 1, 1, 0, false, 2, some 3⟩ (by decide)⟩

theorem C9_witness :
    dbEx.quizzes.find? (fun q => q.id == 1) = some ⟨1, 1, 70, 3⟩ ∧
    quizCourse dbEx ⟨1, 1, 70, 3⟩ = some 1 ∧
    findActiveEnrollment dbEx 1 1 = some ⟨1, 1, 1, true⟩ ∧
    (attemptCount dbEx 1 1 < 3 →
      ∃ att : QuizAttempt,
        start dbEx 1 1 6 = ({ dbEx with quizAttempts := dbEx.quizAttempts ++ [att] }, .ok att) ∧
        att.attemptNumber = attemptCount dbEx 1 1 + 1 ∧
        attemptCount (start dbEx 1 1 6).1 1 1 = attemptCount dbEx 1 1 + 1) :=
  ⟨by decide, by decide, by decide,
   (C9_attempt_limit dbEx 1 1 6 ⟨1, 1, 70, 3⟩ 1 ⟨1, 1, 1, true⟩
     (by decide) (by decide) (by decide)).2.1⟩

/-- `dbEx` after the progress update used in the C3 witness. -/
def dbExProg : DB :=
  { dbEx with
    progressRecords := [⟨1, 1, true, some 7, 30, 10⟩]
    attendanceRecords := [⟨1, 1, "present"⟩] }

theorem C3_witness :
    dbEx.attendanceSessions.Pairwise (fun a b => a.id ≠ b.id) ∧
    update_progress dbEx 1 ⟨1, some true, some 30, some 10⟩ 7 =
      (dbExProg, .ok ⟨1, 1, true, some 7, 30, 10⟩) ∧
    (∀ s ∈ dbEx.attendanceSessions,
      s.linkedContent = some (⟨1, some true, some 30, some 10⟩ : ProgressUpdateData).contentId →
      s.isRequired = true →
      hasPresentRecord dbExProg s.id 1 = true) :=
  ⟨by decide, by decide,
   (C3_progress_update_auto_attendance dbEx 1 ⟨1, some true, some 30, some 10⟩ 7
     dbExProg ⟨1, 1, true, some 7, 30, 10⟩ (by decide) (by decide)).1⟩

theorem C4_witness :
    findPaymentFor dbEx "o1" 1 1 = some ⟨1, 1, 1, "o1", none, none, "pending", "", none⟩ ∧
    ((fun k m => k ++ ":" ++ m) "sec" ("o1" ++ "|" ++ "p1") = "sec:o1|p1" →
      ((verify_payment (fun k m => k ++ ":" ++ m) "sec" dbEx 1
          ⟨"o1", "p1", "sec:o1|p1", 1⟩ 9 4).1.enrollments.any
        (fun e => e.userId == 1 &&
          e.courseId == (⟨1, 1, 1, "o1", none, none, "pending", "", none⟩ : Payment).courseId &&
          e.isActive)) = true ∧
      paymentById (verify_payment (fun k m => k ++ ":" ++ m) "sec" dbEx 1
          ⟨"o1", "p1", "sec:o1|p1", 1⟩ 9 4).1 1 =
        some ⟨1, 1, 1, "o1", some "p1", some "sec:o1|p1", "completed", "", some 9⟩) :=
  ⟨by decide,
   (C4_payment_verification (fun k m => k ++ ":" ++ m) "sec" dbEx 1
     ⟨"o1", "p1", "sec:o1|p1", 1⟩ 9 4 ⟨1, 1, 1, "o1", none, none, "pending", "", none⟩
     (by decide)).1⟩

theorem C5_witness :
    dbEx.enrollments.Pairwise (fun a b => a.id ≠ b.id) ∧
    dbUnique dbEx ∧
    (dbUnique (submit dbEx 1 1 [] 9).1 ∧
     dbUnique (start dbEx 1 1 6).1 ∧
     dbUnique (update_progress dbEx 1 ⟨1, some true, some 30, some 10⟩ 9).1 ∧
     dbUnique (verify_payment (fun k m => k ++ ":" ++ m) "sec" dbEx 1
       ⟨"o1", "p1", "sec:o1|p1", 1⟩ 9 4).1) :=
  ⟨by decide, by decide,
   C5_uniqueness_invariants (fun k m => k ++ ":" ++ m) "sec" dbEx 1 1 1 6 []
     ⟨1, some true, some 30, some 10⟩ ⟨"o1", "p1", "sec:o1|p1", 1⟩ 9 4
     (by decide) (by decide)⟩

theorem C6_witness :
    0 < dbEx.contents.countP (fun c => contentInCourse dbEx c 1) ∧
    (progress_percentage dbEx ⟨1, 1, 1, true⟩ = round2
      (((dbEx.progressRecords.countP
          (fun p => p.enrollmentId == 1 && p.isCompleted) : ℚ) /
        (dbEx.contents.countP (fun c => contentInCourse dbEx c 1) : ℚ)) * 100) ∧
     (∃ n : ℤ, progress_percentage dbEx ⟨1, 1, 1, true⟩ = (n : ℚ) / 100) ∧
     |progress_percentage dbEx ⟨1, 1, 1, true⟩ -
       ((dbEx.progressRecords.countP
          (fun p => p.enrollmentId == 1 && p.isCompleted) : ℚ) /
        (dbEx.contents.countP (fun c => contentInCourse dbEx c 1) : ℚ)) * 100| ≤ 1 / 200) :=
  ⟨by decide,
   (C6_progress_percentage dbEx ⟨1, 1, 1, true⟩).2 (by decide)⟩

/-- A chat state with one delivered message and no receipts. -/
def chatEx : ChatDB := ⟨[⟨1, "delivered", none⟩], []⟩

theorem C8_witness :
    (1 : Nat) ≠ 0 ∧
    ((handle_read_receipt chatEx 2 (some 1) 4).2 =
      [⟨"read_receipt_broadcast", 1, 2, 4⟩]) :=
  ⟨by decide, (C8_read_receipt chatEx 2 1 4 (by decide)).2.2.1⟩

end Witnesses

end ImatLMS

